import Mathlib

/-!
Verification development for the school domain model of
`create_olyv_app` (file `templates/default/app/school/models.py`).

The Python/Django models are shallowly embedded:
* `datetime.date` becomes the `Date` structure; Python date comparison is
  lexicographic on (year, month, day) as in CPython's `date._cmp`, and
  date subtraction `(a - b).days` is the difference of ordinals computed by
  CPython's `_ymd2ord` (days-before-year + days-before-month + day).
* Python `str` values manipulated by the student-id logic (slicing, count of
  ids with a given leading part, zero padding) become `List Char`.
* Django model instances become structures; attributes that the source code
  guards with `hasattr`/truthiness checks (`admission_date`, `class_level`)
  become `Option` fields, matching those guards.
* Database tables become lists; `objects.filter(...).count()` becomes
  `List.filter`/`List.length`; `objects.get(...)` becomes a match on the
  filtered list ([] raises DoesNotExist, two or more raises
  MultipleObjectsReturned).
* `ValidationError({"end_date": msg})` becomes an explicit error value
  carrying the field name and the message; `save` returns `Except`, so an
  error means nothing was persisted.
* `Decimal` currency amounts become `ℚ` (exact arithmetic, as `Decimal`).
-/

/-- A calendar date, as Python's `datetime.date`: year, month, day. -/
structure Date where
  year : Nat
  month : Nat
  day : Nat
deriving DecidableEq, Repr

/-- Python `a < b` on dates: lexicographic on (year, month, day),
as CPython compares the (y, m, d) triples. -/
def Date.lt (a b : Date) : Prop :=
  a.year < b.year ∨ (a.year = b.year ∧
    (a.month < b.month ∨ (a.month = b.month ∧ a.day < b.day)))

/-- Python `a <= b` on dates: lexicographic on (year, month, day). -/
def Date.le (a b : Date) : Prop :=
  a.year < b.year ∨ (a.year = b.year ∧
    (a.month < b.month ∨ (a.month = b.month ∧ a.day ≤ b.day)))

instance decDateLt (a b : Date) : Decidable (Date.lt a b) :=
  inferInstanceAs (Decidable (a.year < b.year ∨ (a.year = b.year ∧
    (a.month < b.month ∨ (a.month = b.month ∧ a.day < b.day)))))

instance decDateLe (a b : Date) : Decidable (Date.le a b) :=
  inferInstanceAs (Decidable (a.year < b.year ∨ (a.year = b.year ∧
    (a.month < b.month ∨ (a.month = b.month ∧ a.day ≤ b.day)))))

/-- Python bool of `a <= b` on dates. -/
def Date.leb (a b : Date) : Bool := decide (Date.le a b)

/-- CPython `datetime._is_leap`. -/
def isLeap (y : Nat) : Bool :=
  y % 4 == 0 && (y % 100 != 0 || y % 400 == 0)

/-- CPython `_DAYS_IN_MONTH` (without the leading -1 pad entry). -/
def daysInMonthList : List Nat :=
  [31, 28, 31, 30, 31, 30, 31, 31, 30, 31, 30, 31]

/-- CPython `datetime._days_in_month`. -/
def daysInMonth (y m : Nat) : Nat :=
  if m = 2 ∧ isLeap y then 29 else daysInMonthList.getD (m - 1) 0

/-- CPython `_DAYS_BEFORE_MONTH` (without the leading -1 pad entry). -/
def daysBeforeMonthList : List Nat :=
  [0, 31, 59, 90, 120, 151, 181, 212, 243, 273, 304, 334]

/-- CPython `datetime._days_before_month`. -/
def daysBeforeMonth (y m : Nat) : Nat :=
  daysBeforeMonthList.getD (m - 1) 0 + (if 2 < m ∧ isLeap y then 1 else 0)

/-- CPython `datetime._days_before_year`:
`(y-1)*365 + (y-1)//4 - (y-1)//100 + (y-1)//400`; the terms are reordered so
that the single truncated `Nat` subtraction cannot underflow
(`a/100 ≤ a/4`), giving the same value as the CPython integer expression. -/
def daysBeforeYear (y : Nat) : Nat :=
  (y - 1) * 365 + (y - 1) / 4 + (y - 1) / 400 - (y - 1) / 100

/-- CPython `date.toordinal` (`_ymd2ord`). -/
def Date.toOrdinal (d : Date) : Nat :=
  daysBeforeYear d.year + daysBeforeMonth d.year d.month + d.day

/-- The dates representable by Python's `datetime.date` constructor
(it rejects out-of-range fields). -/
def Date.Valid (d : Date) : Prop :=
  1 ≤ d.year ∧ 1 ≤ d.month ∧ d.month ≤ 12 ∧ 1 ≤ d.day ∧
    d.day ≤ daysInMonth d.year d.month

instance decDateValid (d : Date) : Decidable (Date.Valid d) :=
  inferInstanceAs (Decidable (1 ≤ d.year ∧ 1 ≤ d.month ∧ d.month ≤ 12 ∧
    1 ≤ d.day ∧ d.day ≤ daysInMonth d.year d.month))

/-- A Django `ValidationError({field: message})` scoped to one field. -/
structure ValidationError where
  field : String
  message : String
deriving DecidableEq, Repr

/-- The `AcademicTerm` model. `id` is the database primary key. The date
fields are `Option` because an in-memory instance may not have them set;
the source's `if self.start_date and self.end_date` guard tests exactly
this. Fields not used by any modelled behavior are omitted. -/
structure AcademicTerm where
  id : Nat
  name : String
  start_date : Option Date
  end_date : Option Date
  year : Nat
deriving DecidableEq, Repr

/-- `AcademicTerm.clean`: end must be strictly after start, and the duration
in days must not be < 60 nor > 120; each violation raises a
`ValidationError` keyed on `end_date`. -/
def AcademicTerm.clean (t : AcademicTerm) : Except ValidationError Unit :=
  match t.start_date, t.end_date with
  | Option.some s, Option.some e =>
    if Date.le e s then
      Except.error ⟨"end_date", "End date must be after the start date."⟩
    else
      let duration : Int := (e.toOrdinal : Int) - (s.toOrdinal : Int)
      if duration < 60 then
        Except.error ⟨"end_date",
          "Term duration seems too short (less than 60 days). Please verify dates."⟩
      else if duration > 120 then
        Except.error ⟨"end_date",
          "Term duration seems too long (more than 120 days). Please verify dates."⟩
      else Except.ok ()
  | _, _ => Except.ok ()

/-- `AcademicTerm.save`: runs `clean`, then persists (appends the row);
an error aborts before anything is written. -/
def AcademicTerm.save (db : List AcademicTerm) (t : AcademicTerm) :
    Except ValidationError (List AcademicTerm) :=
  match t.clean with
  | Except.error e => Except.error e
  | Except.ok _ => Except.ok (db ++ [t])

/-- `AcademicTerm.get_term_status`: `today < start` gives "upcoming",
otherwise `today > end` gives "ended", otherwise "active". A missing date
reached by the comparison chain raises (a `TypeError` in Python), modelled
as `Option.none`. -/
def AcademicTerm.get_term_status (t : AcademicTerm) (today : Date) :
    Option String :=
  match t.start_date with
  | Option.none => Option.none
  | Option.some s =>
    if Date.lt today s then Option.some "upcoming"
    else
      match t.end_date with
      | Option.none => Option.none
      | Option.some e =>
        if Date.lt e today then Option.some "ended" else Option.some "active"

/-- `AcademicTerm.days_remaining`: Python `None` once `today > end_date`,
otherwise `(end_date - today).days`. The outer `Option` is the
exception level (missing `end_date`); the inner `Option` is Python's
`None`-vs-number result. -/
def AcademicTerm.days_remaining (t : AcademicTerm) (today : Date) :
    Option (Option Int) :=
  match t.end_date with
  | Option.none => Option.none
  | Option.some e =>
    if Date.lt e today then Option.some Option.none
    else Option.some (Option.some ((e.toOrdinal : Int) - (today.toOrdinal : Int)))

/-- `ClassLevel.MODEL_CHOICES`: (raw enumeration key, display label),
in progression order. Keys are `List Char` because the id-generation logic
slices them as Python strings. -/
def MODEL_CHOICES : List (List Char × String) :=
  [("beginner".toList, "Beginner Class"), ("pp1".toList, "PP1"),
   ("pp2".toList, "PP2"), ("grade1".toList, "Grade 1"),
   ("grade2".toList, "Grade 2")]

/-- The `ClassLevel` model. `id` is the database primary key; fees are
exact decimal amounts. Fields not used by any modelled behavior
are omitted. -/
structure ClassLevel where
  id : Nat
  name : List Char
  class_order : Nat
  admission_fee : ℚ
  assessment_fee : ℚ
deriving DecidableEq, Repr

/-- `ClassLevel.save`: unconditionally recompute `class_order` as the index
of `name` in `MODEL_CHOICES` plus 1 (`list.index`), or the 999 sentinel when
`list.index` raises `ValueError`, then persist. -/
def ClassLevel.save (c : ClassLevel) : ClassLevel :=
  match (MODEL_CHOICES.map Prod.fst).indexOf? c.name with
  | Option.some i => { c with class_order := i + 1 }
  | Option.none => { c with class_order := 999 }

/-- The `ClassTermFees` model: one fee row keyed by the foreign keys
(class level pk, academic term pk). -/
structure ClassTermFees where
  class_level_id : Nat
  academic_term_id : Nat
  tuition_fee : ℚ
  meal_fee : ℚ
  activity_fee : ℚ
deriving DecidableEq, Repr

/-- `ClassTermFees.get_total_fees`: tuition + meal + activity. -/
def ClassTermFees.get_total_fees (f : ClassTermFees) : ℚ :=
  f.tuition_fee + f.meal_fee + f.activity_fee

/-- The database invariant of `unique_together = (class_level,
academic_term)`: no two rows share both foreign keys. -/
def feeKeyDistinct (db : List ClassTermFees) : Prop :=
  db.Pairwise (fun r1 r2 =>
    ¬(r1.class_level_id = r2.class_level_id ∧
      r1.academic_term_id = r2.academic_term_id))

/-- The `Learner` model. `class_level` and `admission_date` are `Option`:
the source branches on them (`if self.class_level`,
`hasattr(self, "admission_date")`). `student_id` is a Python string,
empty when blank. Fields not used by any modelled behavior are omitted. -/
structure Learner where
  class_level : Option ClassLevel
  date_of_birth : Date
  admission_date : Option Date
  student_id : List Char
deriving DecidableEq, Repr

/-- `Learner.is_admission_term`: the chained Python comparison
`term.start_date <= self.admission_date <= term.end_date` (inclusive on
both ends, short-circuiting like Python). `Option.none` is the
`TypeError` raised when a date in the chain is missing. -/
def Learner.is_admission_term (l : Learner) (t : AcademicTerm) : Option Bool :=
  match t.start_date, l.admission_date with
  | Option.some s, Option.some ad =>
    if Date.le s ad then
      match t.end_date with
      | Option.some e => Option.some (Date.leb ad e)
      | Option.none => Option.none
    else Option.some false
  | _, _ => Option.none

/-- Result of `Learner.get_term_fees`: Python `None` (the caught
`DoesNotExist`), a `Decimal` amount, or an uncaught exception. -/
inductive FeeResult where
  | pyNone : FeeResult
  | amount (q : ℚ) : FeeResult
  | exn : FeeResult
deriving DecidableEq, Repr

/-- `Learner.get_term_fees`: `objects.get` on (class_level, academic_term);
no row gives the caught `DoesNotExist` (Python `None`); a unique row gives
its total, plus the class level's admission + assessment fee added exactly
when `is_admission_term`. Several rows (`MultipleObjectsReturned`), a
missing class level or a failing `is_admission_term` raise. -/
def Learner.get_term_fees (db : List ClassTermFees) (l : Learner)
    (t : AcademicTerm) : FeeResult :=
  match l.class_level with
  | Option.none => FeeResult.exn
  | Option.some cl =>
    match db.filter (fun r =>
        r.class_level_id == cl.id && r.academic_term_id == t.id) with
    | [] => FeeResult.pyNone
    | [r] =>
      match l.is_admission_term t with
      | Option.some b =>
        let term_fees := r.get_total_fees
        FeeResult.amount
          (if b then term_fees + (cl.admission_fee + cl.assessment_fee)
           else term_fees)
      | Option.none => FeeResult.exn
    | _ => FeeResult.exn

/-- `Learner._get_age_as_of_date`: `as_of.year - birth.year`, minus one when
`(as_of.month, as_of.day) < (birth.month, birth.day)` as Python tuples. -/
def Learner.get_age_as_of_date (l : Learner) (as_of : Date) : Int :=
  let age : Int := (as_of.year : Int) - (l.date_of_birth.year : Int)
  if as_of.month < l.date_of_birth.month ∨
      (as_of.month = l.date_of_birth.month ∧ as_of.day < l.date_of_birth.day)
  then age - 1 else age

/-- Decimal printing worker: peels digits from the least significant end,
most significant first in the result. The first argument is recursion fuel;
with fuel at least `n` the zero-fuel arm is never reached. -/
def decStrAux : Nat → Nat → List Char
  | 0, n => [Nat.digitChar (n % 10)]
  | fuel + 1, n =>
    if n < 10 then [Nat.digitChar n]
    else decStrAux fuel (n / 10) ++ [Nat.digitChar (n % 10)]

/-- Python `str(n)` for a natural number: decimal digits,
most significant first. -/
def decStr (n : Nat) : List Char := decStrAux n n

/-- Python `f"{n:03d}"`: pad the decimal form with leading zeros to a
minimum width of 3. -/
def pad3 (n : Nat) : List Char :=
  List.replicate (3 - (decStr n).length) '0' ++ decStr n

/-- The id-generation block of `Learner.save`:
`str(year)[2:]` + first 3 chars of the raw class-level key uppercased
("STU" when no class level) + 3-digit zero-padded (count of existing ids
with the same leading year+code part, plus one). `existing` is the
`student_id` column of the learner table. -/
def Learner.gen_student_id (existing : List (List Char)) (l : Learner)
    (today : Date) : List Char :=
  let yearPart : List Char :=
    match l.admission_date with
    | Option.some d => (decStr d.year).drop 2
    | Option.none => (decStr today.year).drop 2
  let classCode : List Char :=
    match l.class_level with
    | Option.some cl => (cl.name.take 3).map Char.toUpper
    | Option.none => "STU".toList
  let pfx := yearPart ++ classCode
  let existing_count := (existing.filter (fun s => pfx.isPrefixOf s)).length
  pfx ++ pad3 (existing_count + 1)

/-- `Learner.save`: assign `student_id` only when it is blank, then persist
(append the id to the `student_id` column). -/
def Learner.save (existing : List (List Char)) (l : Learner) (today : Date) :
    Learner × List (List Char) :=
  if l.student_id = [] then
    let l2 := { l with student_id := Learner.gen_student_id existing l today }
    (l2, existing ++ [l2.student_id])
  else (l, existing ++ [l.student_id])

theorem isLeap_iff (y : Nat) :
    isLeap y = true ↔ (4 ∣ y ∧ (¬(100 ∣ y) ∨ 400 ∣ y)) := by
  unfold isLeap
  simp [Nat.dvd_iff_mod_eq_zero]

theorem dbm_add_dim_le (y : Nat) {m1 m2 : Nat} (h1 : 1 ≤ m1) (h : m1 < m2)
    (h2 : m2 ≤ 12) :
    daysBeforeMonth y m1 + daysInMonth y m1 ≤ daysBeforeMonth y m2 := by
  unfold daysBeforeMonth daysInMonth daysBeforeMonthList daysInMonthList
  generalize isLeap y = L
  interval_cases m2 <;> interval_cases m1 <;> cases L <;> decide

theorem dbm_add_day_le (y m d : Nat) (h1 : 1 ≤ m) (h2 : m ≤ 12)
    (h3 : d ≤ daysInMonth y m) :
    daysBeforeMonth y m + d ≤ 365 + (if isLeap y then 1 else 0) := by
  unfold daysInMonth daysInMonthList at h3
  unfold daysBeforeMonth daysBeforeMonthList
  rcases Bool.eq_false_or_eq_true (isLeap y) with hL | hL <;> rw [hL] at h3 ⊢ <;>
    interval_cases m <;> simp_all <;> omega

theorem dby_succ (y : Nat) (h : 1 ≤ y) :
    daysBeforeYear (y + 1) =
      daysBeforeYear y + 365 + (if isLeap y then 1 else 0) := by
  obtain ⟨k, rfl⟩ : ∃ k, y = k + 1 := ⟨y - 1, by omega⟩
  have hq : k / 100 ≤ k / 4 := Nat.div_le_div_left (by norm_num) (by norm_num)
  unfold daysBeforeYear
  simp only [Nat.add_sub_cancel]
  rw [Nat.succ_div k 4, Nat.succ_div k 400, Nat.succ_div k 100]
  rcases Classical.em ((4:Nat) ∣ (k+1)) with d4 | d4 <;>
    rcases Classical.em ((100:Nat) ∣ (k+1)) with d100 | d100 <;>
    rcases Classical.em ((400:Nat) ∣ (k+1)) with d400 | d400
  · rw [if_pos d4, if_pos d100, if_pos d400,
      if_pos ((isLeap_iff _).mpr ⟨d4, Or.inr d400⟩)]
    omega
  · have hLf : ¬ (isLeap (k+1) = true) := fun hc => by
      rcases (isLeap_iff _).mp hc with ⟨h4x, h100x⟩
      tauto
    rw [if_pos d4, if_pos d100, if_neg d400, if_neg hLf]
    omega
  · exact absurd (Nat.dvd_trans (by norm_num) d400) d100
  · rw [if_pos d4, if_neg d100, if_neg d400,
      if_pos ((isLeap_iff _).mpr ⟨d4, Or.inl d100⟩)]
    omega
  · exact absurd (Nat.dvd_trans (by norm_num) d100) d4
  · exact absurd (Nat.dvd_trans (by norm_num) d100) d4
  · exact absurd (Nat.dvd_trans (by norm_num) d400) d100
  · have hLf : ¬ (isLeap (k+1) = true) := fun hc => by
      rcases (isLeap_iff _).mp hc with ⟨h4x, h100x⟩
      tauto
    rw [if_neg d4, if_neg d100, if_neg d400, if_neg hLf]
    omega

theorem dby_mono {y1 y2 : Nat} (h : y1 ≤ y2) :
    daysBeforeYear y1 ≤ daysBeforeYear y2 := by
  unfold daysBeforeYear
  have h4 : (y1-1)/4 ≤ (y2-1)/4 := Nat.div_le_div_right (by omega)
  have h400 : (y1-1)/400 ≤ (y2-1)/400 := Nat.div_le_div_right (by omega)
  have h100 : (y2-1)/100 ≤ (y1-1)/100 + ((y2-1) - (y1-1)) := by
    calc (y2-1)/100 = ((y1-1) + ((y2-1)-(y1-1)))/100 := by
          congr 1; omega
    _ ≤ ((y1-1) + 100*((y2-1)-(y1-1)))/100 := Nat.div_le_div_right (by omega)
    _ = (y1-1)/100 + ((y2-1)-(y1-1)) := by
          rw [Nat.add_mul_div_left _ _ (by norm_num)]
  have hq1 : (y1-1)/100 ≤ (y1-1)/4 := Nat.div_le_div_left (by norm_num) (by norm_num)
  have hq2 : (y2-1)/100 ≤ (y2-1)/4 := Nat.div_le_div_left (by norm_num) (by norm_num)
  set a4 := (y1-1)/4
  set b4 := (y2-1)/4
  set a400 := (y1-1)/400
  set b400 := (y2-1)/400
  set a100 := (y1-1)/100
  set b100 := (y2-1)/100
  omega

theorem toOrdinal_lt_of_lt {a b : Date} (ha : a.Valid) (hb : b.Valid)
    (h : Date.lt a b) : a.toOrdinal < b.toOrdinal := by
  obtain ⟨hay, ham1, ham2, had1, had2⟩ := ha
  obtain ⟨hby, hbm1, hbm2, hbd1, hbd2⟩ := hb
  unfold Date.toOrdinal
  rcases h with hy | ⟨hy, hm | ⟨hm, hd⟩⟩
  · have s1 : daysBeforeMonth a.year a.month + a.day ≤
        365 + (if isLeap a.year then 1 else 0) :=
      dbm_add_day_le a.year a.month a.day ham1 ham2 had2
    have s2 : daysBeforeYear a.year + 365 + (if isLeap a.year then 1 else 0) =
        daysBeforeYear (a.year + 1) := (dby_succ a.year hay).symm
    have s3 : daysBeforeYear (a.year + 1) ≤ daysBeforeYear b.year :=
      dby_mono (by omega)
    omega
  · rw [hy]
    have s1 : daysBeforeMonth b.year a.month + daysInMonth b.year a.month ≤
        daysBeforeMonth b.year b.month := by
      refine dbm_add_dim_le b.year ham1 hm hbm2
    rw [hy] at had2
    omega
  · rw [hy, hm]
    omega

theorem toOrdinal_le_of_le {a b : Date} (ha : a.Valid) (hb : b.Valid)
    (h : Date.le a b) : a.toOrdinal ≤ b.toOrdinal := by
  by_cases hlt : Date.lt a b
  · exact Nat.le_of_lt (toOrdinal_lt_of_lt ha hb hlt)
  · have heq : a.year = b.year ∧ a.month = b.month ∧ a.day = b.day := by
      unfold Date.lt at hlt
      unfold Date.le at h
      omega
    unfold Date.toOrdinal
    rw [heq.1, heq.2.1, heq.2.2]

theorem date_le_of_not_lt {a b : Date} (h : ¬ Date.lt a b) : Date.le b a := by
  unfold Date.lt at h
  unfold Date.le
  omega

theorem decStrAux_ne_nil (fuel n : Nat) : decStrAux fuel n ≠ [] := by
  cases fuel <;> unfold decStrAux
  · simp
  · split <;> simp

theorem decStr_ne_nil (n : Nat) : decStr n ≠ [] := decStrAux_ne_nil n n

theorem decStrAux_getLast (fuel n : Nat) :
    (decStrAux fuel n).getLast? = some (Nat.digitChar (n % 10)) := by
  cases fuel <;> unfold decStrAux
  · rfl
  · split
    next h => rw [Nat.mod_eq_of_lt h]; rfl
    next h => rw [List.getLast?_append_cons]; rfl

theorem decStr_getLast (n : Nat) :
    (decStr n).getLast? = some (Nat.digitChar (n % 10)) := decStrAux_getLast n n

theorem pad3_getLast (n : Nat) :
    (pad3 n).getLast? = some (Nat.digitChar (n % 10)) := by
  unfold pad3
  rw [List.getLast?_append_of_ne_nil _ (decStr_ne_nil n), decStr_getLast]

theorem digitChar_inj_lt10 {a b : Nat} (ha : a < 10) (hb : b < 10)
    (h : Nat.digitChar a = Nat.digitChar b) : a = b := by
  interval_cases a <;> interval_cases b <;> revert h <;> decide

theorem pad3_succ_ne (k : Nat) : pad3 (k + 1) ≠ pad3 (k + 2) := by
  intro hEq
  have h1 := pad3_getLast (k + 1)
  have h2 := pad3_getLast (k + 2)
  rw [hEq, h2] at h1
  have h3 : Nat.digitChar ((k + 2) % 10) = Nat.digitChar ((k + 1) % 10) :=
    Option.some.inj h1
  have h4 := digitChar_inj_lt10 (Nat.mod_lt _ (by omega)) (Nat.mod_lt _ (by omega)) h3
  omega

theorem filter_pairwise_eq_singleton {α : Type} {p : α → Bool} :
    ∀ {db : List α},
      db.Pairwise (fun x y => ¬(p x = true ∧ p y = true)) →
      ∀ {r : α}, r ∈ db → p r = true → db.filter p = [r]
  | [], _, _, hmem, _ => absurd hmem (List.not_mem_nil _)
  | a :: db, hpw, r, hmem, hr => by
    rw [List.pairwise_cons] at hpw
    obtain ⟨ha, hdb⟩ := hpw
    rcases List.mem_cons.mp hmem with rfl | hmem2
    · rw [List.filter_cons_of_pos hr]
      have : db.filter p = [] := List.filter_eq_nil_iff.mpr fun y hy hpy =>
        ha y hy ⟨hr, hpy⟩
      rw [this]
    · have hpa : ¬ (p a = true) := fun hpa => ha r hmem2 ⟨hpa, hr⟩
      rw [List.filter_cons_of_neg (by simpa using hpa)]
      exact filter_pairwise_eq_singleton hdb hmem2 hr

/-- Claim C5: for every AcademicTerm with both dates present, if
end_date <= start_date then save raises a validation error scoped to the
end_date field, and nothing is persisted (the save stops before writing:
the error carries no updated table). -/
theorem c5_end_not_after_start (db : List AcademicTerm) (t : AcademicTerm)
    (s e : Date) (hs : t.start_date = some s) (he : t.end_date = some e)
    (h : Date.le e s) :
    AcademicTerm.save db t =
      Except.error ⟨"end_date", "End date must be after the start date."⟩ := by
  simp [AcademicTerm.save, AcademicTerm.clean, hs, he, h]

/-- Witness for C5 at a concrete term with end before start. -/
theorem c5_witness :
    AcademicTerm.save []
      ⟨1, "term1", some ⟨2025, 5, 1⟩, some ⟨2025, 4, 1⟩, 2025⟩ =
      Except.error ⟨"end_date", "End date must be after the start date."⟩ :=
  c5_end_not_after_start _ _ _ _ rfl rfl (by decide)

/-- Claim C4: for every AcademicTerm with both dates present and end_date
after start_date, saving fails with a field-scoped validation error naming
end_date exactly when the duration in days is < 60 or > 120; durations of
exactly 60 or exactly 120 days are accepted and the row is persisted. -/
theorem c4_duration_bounds (db : List AcademicTerm) (t : AcademicTerm)
    (s e : Date) (hs : t.start_date = some s) (he : t.end_date = some e)
    (h : Date.lt s e) :
    ((∃ m, AcademicTerm.save db t = Except.error ⟨"end_date", m⟩) ↔
      ((e.toOrdinal : Int) - (s.toOrdinal : Int) < 60 ∨
        (e.toOrdinal : Int) - (s.toOrdinal : Int) > 120))
    ∧ (60 ≤ (e.toOrdinal : Int) - (s.toOrdinal : Int) →
        (e.toOrdinal : Int) - (s.toOrdinal : Int) ≤ 120 →
        AcademicTerm.save db t = Except.ok (db ++ [t])) := by
  have hnot : ¬ Date.le e s := by
    unfold Date.lt at h
    unfold Date.le
    omega
  by_cases h60 : (e.toOrdinal : Int) - (s.toOrdinal : Int) < 60 <;>
    by_cases h120 : (e.toOrdinal : Int) - (s.toOrdinal : Int) > 120 <;>
    simp [AcademicTerm.save, AcademicTerm.clean, hs, he, hnot, h60, h120] <;>
    omega

/-- Witness for C4: a term of exactly 60 days is accepted and persisted. -/
theorem c4_witness :
    (60 : Int) ≤ (Date.toOrdinal ⟨2025, 3, 2⟩ : Int) - (Date.toOrdinal ⟨2025, 1, 1⟩ : Int) ∧
    AcademicTerm.save []
      ⟨1, "term1", some ⟨2025, 1, 1⟩, some ⟨2025, 3, 2⟩, 2025⟩ =
      Except.ok [⟨1, "term1", some ⟨2025, 1, 1⟩, some ⟨2025, 3, 2⟩, 2025⟩] :=
  ⟨by decide,
    (c4_duration_bounds _ _ _ _ rfl rfl (by decide)).2 (by decide) (by decide)⟩

/-- Claim C10: for every AcademicTerm (satisfying the save-enforced
invariant start_date <= end_date, here even in the weak non-strict form)
and every current date, days_remaining is Python None exactly when
get_term_status is "ended"; a term reported upcoming or active always has
a numeric days-remaining value. -/
theorem c10_days_remaining_iff_status (t : AcademicTerm) (today s e : Date)
    (hs : t.start_date = some s) (he : t.end_date = some e)
    (hse : Date.le s e) :
    ((t.days_remaining today = some none) ↔
      (t.get_term_status today = some "ended"))
    ∧ ((t.get_term_status today = some "upcoming" ∨
        t.get_term_status today = some "active") →
        ∃ k, t.days_remaining today = some (some k)) := by
  by_cases h1 : Date.lt today s <;> by_cases h2 : Date.lt e today <;>
    simp [AcademicTerm.days_remaining, AcademicTerm.get_term_status, hs, he, h1, h2]
  unfold Date.lt Date.le at *
  omega

/-- Witness for C10 at a concrete ended term. -/
theorem c10_witness :
    ((AcademicTerm.mk 1 "term1" (some ⟨2025, 5, 1⟩) (some ⟨2025, 8, 30⟩) 2025).days_remaining
        ⟨2025, 9, 15⟩ = some none) ↔
      ((AcademicTerm.mk 1 "term1" (some ⟨2025, 5, 1⟩) (some ⟨2025, 8, 30⟩) 2025).get_term_status
        ⟨2025, 9, 15⟩ = some "ended") :=
  (c10_days_remaining_iff_status _ _ _ _ rfl rfl (by decide)).1

/-- Counterexample to claim C3's negativity clause: a validated term that
has not yet started (current date strictly before start_date) yields the
positive value 227, and no term with valid Python dates can ever produce a
negative days-remaining value, because the None guard (today > end_date)
already caught every case where end_date - today would be negative. -/
theorem c3_counterexample :
    (Date.lt ⟨2025, 1, 15⟩ ⟨2025, 5, 1⟩ ∧
      (AcademicTerm.mk 1 "term1" (some ⟨2025, 5, 1⟩) (some ⟨2025, 8, 30⟩)
        2025).days_remaining ⟨2025, 1, 15⟩ = some (some 227)) ∧
    ¬ ∃ (t : AcademicTerm) (today e : Date) (k : Int),
        t.end_date = some e ∧ Date.Valid e ∧ Date.Valid today ∧
        t.days_remaining today = some (some k) ∧ k < 0 := by
  refine ⟨by decide, ?_⟩
  rintro ⟨t, today, e, k, he, hve, hvt, hdr, hneg⟩
  simp only [AcademicTerm.days_remaining, he] at hdr
  by_cases h : Date.lt e today
  · rw [if_pos h] at hdr
    simp at hdr
  · rw [if_neg h] at hdr
    have hk : (e.toOrdinal : Int) - (today.toOrdinal : Int) = k :=
      Option.some.inj (Option.some.inj hdr)
    have hle := toOrdinal_le_of_le hvt hve (date_le_of_not_lt h)
    omega

/-- Claim C3 (amended): days_remaining() returns Python None when the
current date is strictly after end_date; otherwise it returns end_date
minus the current date in days, a value that is never negative (for valid
Python dates). -/
theorem c3_amended_days_remaining (t : AcademicTerm) (today e : Date)
    (he : t.end_date = some e) (hve : Date.Valid e) (hvt : Date.Valid today) :
    (Date.lt e today → t.days_remaining today = some none)
    ∧ (¬ Date.lt e today →
        t.days_remaining today =
          some (some ((e.toOrdinal : Int) - (today.toOrdinal : Int)))
        ∧ 0 ≤ (e.toOrdinal : Int) - (today.toOrdinal : Int)) := by
  constructor
  · intro h
    simp [AcademicTerm.days_remaining, he, h]
  · intro h
    refine ⟨by simp [AcademicTerm.days_remaining, he, h], ?_⟩
    have hle := toOrdinal_le_of_le hvt hve (date_le_of_not_lt h)
    omega

/-- Witness for C3 (amended) at a not-yet-started term: the returned
day count is the ordinal difference and is nonnegative. -/
theorem c3_witness :
    (AcademicTerm.mk 1 "term1" (some ⟨2025, 5, 1⟩) (some ⟨2025, 8, 30⟩) 2025).days_remaining
        ⟨2025, 1, 15⟩ =
      some (some ((Date.toOrdinal ⟨2025, 8, 30⟩ : Int) - (Date.toOrdinal ⟨2025, 1, 15⟩ : Int)))
    ∧ 0 ≤ (Date.toOrdinal ⟨2025, 8, 30⟩ : Int) - (Date.toOrdinal ⟨2025, 1, 15⟩ : Int) :=
  (c3_amended_days_remaining _ _ _ rfl (by decide) (by decide)).2 (by decide)

/-- Claim C6: every ClassLevel save unconditionally (for an arbitrary
in-memory record, whatever its current class_order) sets class_order to
the index of its name in the canonical 5-element enumeration plus 1, and
to the sentinel 999 when the name is not in the enumeration. -/
theorem c6_class_order (c : ClassLevel) :
    (MODEL_CHOICES.map Prod.fst).length = 5
    ∧ (∀ i : Nat, ∀ h : i < (MODEL_CHOICES.map Prod.fst).length,
        c.name = (MODEL_CHOICES.map Prod.fst).get ⟨i, h⟩ →
        (ClassLevel.save c).class_order = i + 1)
    ∧ (c.name ∉ (MODEL_CHOICES.map Prod.fst) →
        (ClassLevel.save c).class_order = 999) := by
  refine ⟨rfl, ?_, ?_⟩
  · intro i h hname
    unfold ClassLevel.save
    unfold MODEL_CHOICES at hname ⊢
    have h5 : i < 5 := by simpa using h
    interval_cases i <;> simp at hname <;> rw [hname] <;> rfl
  · intro hnot
    unfold ClassLevel.save
    have hidx : (MODEL_CHOICES.map Prod.fst).indexOf? c.name = none := by
      rw [List.indexOf?_eq_none_iff]
      intro x hx hbeq
      exact hnot (beq_iff_eq.mp hbeq ▸ hx)
    rw [hidx]

/-- Witness for C6: "pp1" gets order 2; an unknown name gets 999. -/
theorem c6_witness :
    (ClassLevel.save ⟨1, "pp1".toList, 0, 100, 50⟩).class_order = 2
    ∧ (ClassLevel.save ⟨2, "unknown".toList, 0, 100, 50⟩).class_order = 999 :=
  ⟨(c6_class_order _).2.1 1 (by decide) (by decide),
    (c6_class_order _).2.2 (by decide)⟩

/-- Claim C7: for every Learner and reference date, the computed age is
reference.year - birth.year, reduced by one exactly when
(reference.month, reference.day) is lexicographically smaller than
(birth.month, birth.day); birth 2020-06-15 gives age 4 as of 2025-06-01
and age 5 as of 2025-06-15. -/
theorem c7_age :
    (∀ (l : Learner) (ref : Date),
      l.get_age_as_of_date ref =
        (ref.year : Int) - (l.date_of_birth.year : Int) -
          (if ref.month < l.date_of_birth.month ∨
              (ref.month = l.date_of_birth.month ∧ ref.day < l.date_of_birth.day)
            then 1 else 0))
    ∧ Learner.get_age_as_of_date ⟨none, ⟨2020, 6, 15⟩, none, []⟩ ⟨2025, 6, 1⟩ = 4
    ∧ Learner.get_age_as_of_date ⟨none, ⟨2020, 6, 15⟩, none, []⟩ ⟨2025, 6, 15⟩ = 5 := by
  refine ⟨fun l ref => ?_, by decide, by decide⟩
  unfold Learner.get_age_as_of_date
  by_cases h : ref.month < l.date_of_birth.month ∨
      (ref.month = l.date_of_birth.month ∧ ref.day < l.date_of_birth.day)
  · rw [if_pos h, if_pos h]
  · rw [if_neg h, if_neg h]
    omega

/-- Claim C8: saving a Learner whose student_id is already non-empty
leaves the record (in particular student_id) unchanged, regardless of the
other fields and of the existing table contents. -/
theorem c8_existing_id_unchanged (existing : List (List Char)) (l : Learner)
    (today : Date) (h : l.student_id ≠ []) :
    (Learner.save existing l today).1 = l := by
  unfold Learner.save
  rw [if_neg h]

/-- Witness for C8 at a learner with a pre-existing id. -/
theorem c8_witness :
    (Learner.save [] ⟨none, ⟨2020, 1, 1⟩, none, "25BEG001".toList⟩ ⟨2025, 1, 1⟩).1 =
      ⟨none, ⟨2020, 1, 1⟩, none, "25BEG001".toList⟩ :=
  c8_existing_id_unchanged _ _ _ (by decide)

/-- Claim C1: under the unique_together database invariant, for a learner
with a class level and an admission date and a term with both dates:
if no ClassTermFees row matches (class_level, term), get_term_fees returns
Python None (not zero, not an exception); if a row matches, the result is
the row's total fees plus the class level's admission_fee + assessment_fee
exactly when term.start_date <= admission_date <= term.end_date (inclusive
on both ends), and the row's total fees alone otherwise. -/
theorem c1_get_term_fees (db : List ClassTermFees) (l : Learner)
    (t : AcademicTerm) (cl : ClassLevel) (ad s e : Date)
    (hu : feeKeyDistinct db)
    (hcl : l.class_level = some cl) (had : l.admission_date = some ad)
    (hs : t.start_date = some s) (he : t.end_date = some e) :
    ((∀ r ∈ db, ¬(r.class_level_id = cl.id ∧ r.academic_term_id = t.id)) →
        Learner.get_term_fees db l t = FeeResult.pyNone)
    ∧ (∀ r ∈ db, r.class_level_id = cl.id → r.academic_term_id = t.id →
        Learner.get_term_fees db l t =
          FeeResult.amount
            (if Date.le s ad ∧ Date.le ad e
              then r.get_total_fees + (cl.admission_fee + cl.assessment_fee)
              else r.get_total_fees)) := by
  constructor
  · intro hnone
    have hfil : db.filter (fun r =>
        r.class_level_id == cl.id && r.academic_term_id == t.id) = [] := by
      rw [List.filter_eq_nil_iff]
      intro r hr hp
      simp only [Bool.and_eq_true, beq_iff_eq] at hp
      exact hnone r hr hp
    simp [Learner.get_term_fees, hcl, hfil]
  · intro r hr hr1 hr2
    have hp : (fun r : ClassTermFees =>
        r.class_level_id == cl.id && r.academic_term_id == t.id) r = true := by
      simp [hr1, hr2]
    have hpw : db.Pairwise (fun x y =>
        ¬((fun r : ClassTermFees =>
            r.class_level_id == cl.id && r.academic_term_id == t.id) x = true ∧
          (fun r : ClassTermFees =>
            r.class_level_id == cl.id && r.academic_term_id == t.id) y = true)) := by
      refine hu.imp ?_
      intro a b hab hcontra
      obtain ⟨ha, hb⟩ := hcontra
      simp only [Bool.and_eq_true, beq_iff_eq] at ha hb
      exact hab ⟨ha.1.trans hb.1.symm, ha.2.trans hb.2.symm⟩
    have hfil := filter_pairwise_eq_singleton hpw hr hp
    simp only [Learner.get_term_fees, hcl, hfil]
    simp only [Learner.is_admission_term, hs, had, he]
    by_cases h1 : Date.le s ad
    · rw [if_pos h1]
      by_cases h2 : Date.le ad e
      · simp [Date.leb, h1, h2]
      · simp [Date.leb, h1, h2]
    · rw [if_neg h1]
      simp [h1]

/-- Witness for C1: one matching fee row, admission inside the term, so
the total 1250 plus the one-time 150 is returned. -/
theorem c1_witness :
    Learner.get_term_fees [⟨1, 1, 1000, 200, 50⟩]
      ⟨some ⟨1, "beginner".toList, 1, 100, 50⟩, ⟨2020, 6, 15⟩, some ⟨2025, 2, 1⟩, []⟩
      ⟨1, "term1", some ⟨2025, 1, 1⟩, some ⟨2025, 4, 1⟩, 2025⟩ =
      FeeResult.amount 1400 := by
  have h := (c1_get_term_fees [⟨1, 1, 1000, 200, 50⟩]
    ⟨some ⟨1, "beginner".toList, 1, 100, 50⟩, ⟨2020, 6, 15⟩, some ⟨2025, 2, 1⟩, []⟩
    ⟨1, "term1", some ⟨2025, 1, 1⟩, some ⟨2025, 4, 1⟩, 2025⟩
    ⟨1, "beginner".toList, 1, 100, 50⟩ ⟨2025, 2, 1⟩ ⟨2025, 1, 1⟩ ⟨2025, 4, 1⟩
    (by simp [feeKeyDistinct]) rfl rfl rfl rfl).2
    ⟨1, 1, 1000, 200, 50⟩ (by simp) rfl rfl
  rw [h]
  norm_num [ClassTermFees.get_total_fees]
  decide

/-- Claim C2: a Learner saved with student_id absent is assigned
str(year)[2:] (the admission year, falling back to the current year when
admission_date is unset) followed by the first 3 characters of the raw
class-level enumeration key uppercased ("STU" when no class level is set)
followed by the 3-digit zero-padded count of existing learners whose
student_id starts with that same year+code leading part, plus one. -/
theorem c2_generated_id (existing : List (List Char)) (l : Learner)
    (today : Date) (hblank : l.student_id = []) :
    (∀ (d : Date) (cl2 : ClassLevel),
      l.admission_date = some d → l.class_level = some cl2 →
      (Learner.save existing l today).1.student_id =
        ((decStr d.year).drop 2 ++ (cl2.name.take 3).map Char.toUpper) ++
          pad3 ((existing.filter (fun s =>
            ((decStr d.year).drop 2 ++
              (cl2.name.take 3).map Char.toUpper).isPrefixOf s)).length + 1))
    ∧ (l.admission_date = none → l.class_level = none →
      (Learner.save existing l today).1.student_id =
        ((decStr today.year).drop 2 ++ "STU".toList) ++
          pad3 ((existing.filter (fun s =>
            ((decStr today.year).drop 2 ++
              "STU".toList).isPrefixOf s)).length + 1)) := by
  constructor
  · intro d cl2 hd hcl2
    simp [Learner.save, Learner.gen_student_id, hblank, hd, hcl2]
  · intro hd hcl2
    simp [Learner.save, Learner.gen_student_id, hblank, hd, hcl2]

/-- Witness for C2: with one existing "25BEG..." id, the next admission
in 2025 to class "beginner" gets "25BEG002". -/
theorem c2_witness :
    (Learner.save ["25BEG001".toList]
      ⟨some ⟨1, "beginner".toList, 1, 100, 50⟩, ⟨2020, 6, 15⟩,
        some ⟨2025, 3, 4⟩, []⟩ ⟨2025, 9, 1⟩).1.student_id =
      "25BEG002".toList := by
  have h := ((c2_generated_id ["25BEG001".toList]
    ⟨some ⟨1, "beginner".toList, 1, 100, 50⟩, ⟨2020, 6, 15⟩,
      some ⟨2025, 3, 4⟩, []⟩ ⟨2025, 9, 1⟩ rfl).1
    ⟨2025, 3, 4⟩ ⟨1, "beginner".toList, 1, 100, 50⟩ rfl rfl)
  rw [h]
  decide

/-- Claim C9: two Learners saved one after the other (sequentially), both
with blank ids, with the same admission year and the same class code (the
first 3 characters of the raw class-level key, uppercased - the keys
themselves may differ, as for grade1 and grade2 which share the code GRA),
receive distinct student_ids carrying consecutive sequence numbers. -/
theorem c9_sequential_ids (db : List (List Char)) (lA lB : Learner)
    (tA tB dA dB : Date) (cA cB : ClassLevel)
    (hA : lA.student_id = []) (hB : lB.student_id = [])
    (hdA : lA.admission_date = some dA) (hdB : lB.admission_date = some dB)
    (hy : dA.year = dB.year)
    (hcA : lA.class_level = some cA) (hcB : lB.class_level = some cB)
    (hcode : (cA.name.take 3).map Char.toUpper =
      (cB.name.take 3).map Char.toUpper) :
    (Learner.save db lA tA).1.student_id ≠
      (Learner.save (Learner.save db lA tA).2 lB tB).1.student_id
    ∧ ∃ (pfx : List Char) (k : Nat),
        (Learner.save db lA tA).1.student_id = pfx ++ pad3 (k + 1) ∧
        (Learner.save (Learner.save db lA tA).2 lB tB).1.student_id =
          pfx ++ pad3 (k + 2) := by
  have e1 : (Learner.save db lA tA).1.student_id =
      ((decStr dA.year).drop 2 ++ (cA.name.take 3).map Char.toUpper) ++
        pad3 ((db.filter (fun s =>
          ((decStr dA.year).drop 2 ++
            (cA.name.take 3).map Char.toUpper).isPrefixOf s)).length + 1) := by
    simp [Learner.save, Learner.gen_student_id, hA, hdA, hcA]
  have e2 : (Learner.save db lA tA).2 =
      db ++ [((decStr dA.year).drop 2 ++ (cA.name.take 3).map Char.toUpper) ++
        pad3 ((db.filter (fun s =>
          ((decStr dA.year).drop 2 ++
            (cA.name.take 3).map Char.toUpper).isPrefixOf s)).length + 1)] := by
    simp [Learner.save, Learner.gen_student_id, hA, hdA, hcA]
  have hpTrue : (((decStr dA.year).drop 2 ++
      (cA.name.take 3).map Char.toUpper).isPrefixOf
        (((decStr dA.year).drop 2 ++ (cA.name.take 3).map Char.toUpper) ++
          pad3 ((db.filter (fun s =>
            ((decStr dA.year).drop 2 ++
              (cA.name.take 3).map Char.toUpper).isPrefixOf s)).length + 1))) = true := by
    simp only [List.isPrefixOf_iff_prefix]
    exact List.prefix_append _ _
  have e3 : (Learner.save
      (db ++ [((decStr dA.year).drop 2 ++ (cA.name.take 3).map Char.toUpper) ++
        pad3 ((db.filter (fun s =>
          ((decStr dA.year).drop 2 ++
            (cA.name.take 3).map Char.toUpper).isPrefixOf s)).length + 1)])
      lB tB).1.student_id =
      ((decStr dB.year).drop 2 ++ (cB.name.take 3).map Char.toUpper) ++
        pad3 (((db ++ [((decStr dA.year).drop 2 ++
            (cA.name.take 3).map Char.toUpper) ++
          pad3 ((db.filter (fun s =>
            ((decStr dA.year).drop 2 ++
              (cA.name.take 3).map Char.toUpper).isPrefixOf s)).length + 1)]).filter
          (fun s => ((decStr dB.year).drop 2 ++
            (cB.name.take 3).map Char.toUpper).isPrefixOf s)).length + 1) := by
    simp [Learner.save, Learner.gen_student_id, hB, hdB, hcB]
  rw [← hy, ← hcode] at e3
  have hcnt : ((db ++ [((decStr dA.year).drop 2 ++
        (cA.name.take 3).map Char.toUpper) ++
      pad3 ((db.filter (fun s =>
        ((decStr dA.year).drop 2 ++
          (cA.name.take 3).map Char.toUpper).isPrefixOf s)).length + 1)]).filter
      (fun s => ((decStr dA.year).drop 2 ++
        (cA.name.take 3).map Char.toUpper).isPrefixOf s)).length =
      (db.filter (fun s => ((decStr dA.year).drop 2 ++
        (cA.name.take 3).map Char.toUpper).isPrefixOf s)).length + 1 := by
    rw [List.filter_append]
    simp [hpTrue]
  rw [hcnt] at e3
  refine ⟨?_, (decStr dA.year).drop 2 ++ (cA.name.take 3).map Char.toUpper,
    (db.filter (fun s =>
      ((decStr dA.year).drop 2 ++
        (cA.name.take 3).map Char.toUpper).isPrefixOf s)).length, e1, ?_⟩
  · rw [e1, e2, e3]
    intro hEq
    exact pad3_succ_ne _ (List.append_cancel_left hEq)
  · rw [e2, e3]

/-- Witness for C9: sequential admissions in 2025 to grade1 and then
grade2 - different class-level keys sharing the code GRA - receive
distinct ids. -/
theorem c9_witness :
    (Learner.save []
      ⟨some ⟨4, "grade1".toList, 4, 100, 50⟩, ⟨2018, 6, 15⟩,
        some ⟨2025, 3, 4⟩, []⟩ ⟨2025, 9, 1⟩).1.student_id ≠
    (Learner.save
      (Learner.save []
        ⟨some ⟨4, "grade1".toList, 4, 100, 50⟩, ⟨2018, 6, 15⟩,
          some ⟨2025, 3, 4⟩, []⟩ ⟨2025, 9, 1⟩).2
      ⟨some ⟨5, "grade2".toList, 5, 100, 50⟩, ⟨2017, 8, 2⟩,
        some ⟨2025, 4, 7⟩, []⟩ ⟨2025, 9, 2⟩).1.student_id :=
  (c9_sequential_ids [] _ _ _ _ ⟨2025, 3, 4⟩ ⟨2025, 4, 7⟩
    ⟨4, "grade1".toList, 4, 100, 50⟩ ⟨5, "grade2".toList, 5, 100, 50⟩
    rfl rfl rfl rfl rfl rfl rfl (by decide)).1
